import Mathlib

/-!
Verification of the CwaWeather backend (`src/server.js`).

The file shallowly embeds the request handler `getCityWeather`, the city-code
table `CITY_MAP` and the forecast-normalization loop of `server.js` into Lean,
and proves the testable properties of the specification against that embedding.

Modelling conventions:
 - JavaScript exceptions thrown while normalizing (reading a property of
   `undefined`) are modelled by `Option`: `none` means the `try` block threw
   and control reached the generic `catch` branch.
 - The upstream `axios.get` call is an oracle passed to the handler as an
   `UpstreamResult` value; the handler's result also carries the number of
   outbound calls actually performed (0 or 1).
 - Property lookup on the object literal `CITY_MAP` follows JavaScript
   semantics: an own property is found first, otherwise the lookup walks the
   prototype chain to `Object.prototype`, whose member names therefore yield a
   truthy (non-`undefined`) value even though they are not city codes.
-/

namespace CwaWeather

/-- One `parameter` object inside a CWA time entry; only `parameterName` is
ever read by `server.js`. -/
structure Parameter where
  parameterName : String
deriving DecidableEq, Repr

/-- One entry of an element's `time` array. -/
structure TimeEntry where
  startTime : String
  endTime : String
  parameter : Parameter
deriving DecidableEq, Repr

/-- One weather element of a location record: a tag name and its time series. -/
structure WeatherElement where
  elementName : String
  time : List TimeEntry
deriving DecidableEq, Repr

/-- One location record of the upstream payload. -/
structure LocationData where
  locationName : String
  weatherElement : List WeatherElement
deriving DecidableEq, Repr

/-- The `records` object of the upstream JSON body. -/
structure Records where
  datasetDescription : String
  location : List LocationData
deriving DecidableEq, Repr

/-- One normalized forecast interval, as pushed into `weatherData.forecasts`. -/
structure Forecast where
  startTime : String
  endTime : String
  weather : String
  rain : String
  minTemp : String
  maxTemp : String
  comfort : String
  windSpeed : String
deriving DecidableEq, Repr

/-- The object literal initializing `forecast` at the top of the interval
loop: times from the given entry, all six data fields empty strings. -/
def initForecast (t : TimeEntry) : Forecast :=
  ⟨t.startTime, t.endTime, "", "", "", "", "", ""⟩

/-- The `switch (element.elementName)` statement: writes the parameter value
`v` into the field selected by `name`, appending the literal suffixes used by
the source for `PoP` / `MinT` / `MaxT`; any other tag leaves the forecast
unchanged. -/
def setField (name v : String) (f : Forecast) : Forecast :=
  match name with
  | "Wx" => { f with weather := v }
  | "PoP" => { f with rain := v ++ "%" }
  | "MinT" => { f with minTemp := v ++ "°C" }
  | "MaxT" => { f with maxTemp := v ++ "°C" }
  | "CI" => { f with comfort := v }
  | "WS" => { f with windSpeed := v }
  | _ => f

/-- The `weatherElements.forEach` body at interval `i`, iterated over the
element list. Reading `element.time[i].parameter` when `time[i]` is
`undefined` throws, modelled by `none`. -/
def applyElements (i : Nat) : Forecast → List WeatherElement → Option Forecast
  | f, [] => some f
  | f, e :: es =>
    match e.time[i]? with
    | none => none
    | some entry => applyElements i (setField e.elementName entry.parameter.parameterName f) es

/-- One iteration of the interval loop: build the initial forecast from the
first element's `i`-th entry, then run the `forEach` over all elements. -/
def buildForecast (elements : List WeatherElement) (first : WeatherElement) (i : Nat) :
    Option Forecast :=
  match first.time[i]? with
  | none => none
  | some t0 => applyElements i (initForecast t0) elements

/-- The interval loop `for (let i = 0; i < timeCount; i++)`, collecting the
pushed forecasts in order; a throw anywhere discards everything (the response
is only sent after the loop finishes). -/
def collectForecasts (elements : List WeatherElement) (first : WeatherElement) :
    List Nat → Option (List Forecast)
  | [] => some []
  | i :: is =>
    match buildForecast elements first i with
    | none => none
    | some f => (collectForecasts elements first is).map (fun fs => f :: fs)

/-- The normalization portion of `getCityWeather` (lines 114-154 of
`server.js`): with zero weather elements, `weatherElements[0].time` throws
(`none`); otherwise iterate over `[0, timeCount)` where `timeCount` is the
first element's time-series length. -/
def normalize (loc : LocationData) : Option (List Forecast) :=
  match loc.weatherElement with
  | [] => none
  | first :: _ =>
    collectForecasts loc.weatherElement first (List.range first.time.length)

/-- The `CITY_MAP` object literal of `server.js`: all 22 city codes with
their Chinese administrative names, in source order. -/
def CITY_MAP : List (String × String) :=
  [("taipei", "臺北市"), ("new_taipei", "新北市"), ("taoyuan", "桃園市"),
   ("taichung", "臺中市"), ("tainan", "臺南市"), ("kaohsiung", "高雄市"),
   ("keelung", "基隆市"), ("hsinchu_city", "新竹市"), ("hsinchu_county", "新竹縣"),
   ("yilan", "宜蘭縣"), ("miaoli", "苗栗縣"), ("changhua", "彰化縣"),
   ("nantou", "南投縣"), ("yunlin", "雲林縣"), ("chiayi_city", "嘉義市"),
   ("chiayi_county", "嘉義縣"), ("pingtung", "屏東縣"), ("hualien", "花蓮縣"),
   ("taitung", "臺東縣"), ("penghu", "澎湖縣"), ("kinmen", "金門縣"),
   ("lienchiang", "連江縣")]

/-- The member names of `Object.prototype` in Node.js: `CITY_MAP[k]` for any
of these `k` finds an inherited (truthy, non-string) value even though the
object literal has no such own property. -/
def objectProtoKeys : List String :=
  ["constructor", "hasOwnProperty", "isPrototypeOf", "propertyIsEnumerable",
   "toLocaleString", "toString", "valueOf", "__proto__",
   "__defineGetter__", "__defineSetter__", "__lookupGetter__", "__lookupSetter__"]

/-- Result of the JavaScript property read `CITY_MAP[cityCode]`. -/
inductive JsLookup where
  | undef
  | ownStr (s : String)
  | protoMember (k : String)
deriving DecidableEq, Repr

/-- `CITY_MAP[cityCode]` with JavaScript semantics: own property first, then
the `Object.prototype` members, else `undefined`. -/
def cityLookup (code : String) : JsLookup :=
  match CITY_MAP.lookup code with
  | some s => JsLookup.ownStr s
  | none =>
    if objectProtoKeys.contains code then JsLookup.protoMember code else JsLookup.undef

/-- Truthiness of the looked-up value under `if (!targetLocation)`: every own
value is a non-empty string and every inherited member is a function or
object, so only `undefined` is falsy. -/
def JsLookup.truthy : JsLookup → Bool
  | JsLookup.undef => false
  | JsLookup.ownStr _ => true
  | JsLookup.protoMember _ => true

/-- `String(value)` as performed by the template literal that interpolates
`targetLocation` into the no-data message. Own values are plain strings;
`Object.prototype` members are native functions (for `"constructor"` the
`Object` constructor itself) except the accessor `__proto__`, whose value
stringifies as `[object Object]`. -/
def JsLookup.display : JsLookup → String
  | JsLookup.undef => "undefined"
  | JsLookup.ownStr s => s
  | JsLookup.protoMember k =>
    if k = "__proto__" then "[object Object]"
    else if k = "constructor" then "function Object() \x7b [native code] \x7d"
    else "function " ++ k ++ "() \x7b [native code] \x7d"

/-- Truthiness of `CWA_API_KEY`: `undefined` (unset) and the empty string are
falsy. -/
def jsTruthyStr : Option String → Bool
  | none => false
  | some s => s ≠ ""

/-- `error.response.data.message || "無法取得天氣資料"`: the default replaces a
missing or falsy (empty) upstream message. -/
def jsStrOr (m : Option String) (d : String) : String :=
  match m with
  | none => d
  | some s => if s = "" then d else s

/-- Outcome of the single `axios.get` call: a 2xx JSON body, a non-2xx
response (axios throws with `error.response` set), or a transport-level
failure (axios throws without `error.response`). -/
inductive UpstreamResult where
  | ok (records : Records)
  | httpError (status : Nat) (message : Option String)
  | transport
deriving DecidableEq, Repr

/-- JSON body variants produced by `getCityWeather` and the 404 middleware,
identified by their `error` label; the carried string is the `message`
field. -/
inductive RespBody where
  | invalidCity (message : String)
  | misconfigured (message : String)
  | upstreamErr (message : String)
  | noData (message : String)
  | serverError (message : String)
  | success (city : String) (cityCode : String) (updateTime : String) (forecasts : List Forecast)
  | notFound (message : String)
deriving DecidableEq, Repr

/-- An HTTP response: status code and JSON body. -/
structure Response where
  status : Nat
  body : RespBody
deriving DecidableEq, Repr

/-- The request handler `getCityWeather` of `server.js`, as a function of the
configured credential, the upstream oracle and the `:city` path parameter.
The first component counts outbound `axios.get` calls performed. -/
def getCityWeather (apiKey : Option String) (upstream : UpstreamResult) (cityCode : String) :
    Nat × Response :=
  let target := cityLookup cityCode
  if target.truthy = false then
    (0, ⟨400, RespBody.invalidCity
      ("不支援 \x27" ++ cityCode ++ "\x27。請使用正確的城市代碼 (例如: taipei, hualien, penghu...)")⟩)
  else if jsTruthyStr apiKey = false then
    (0, ⟨500, RespBody.misconfigured "請在 .env 檔案中設定 CWA_API_KEY"⟩)
  else
    match upstream with
    | UpstreamResult.transport =>
      (1, ⟨500, RespBody.serverError "無法取得天氣資料，請稍後再試"⟩)
    | UpstreamResult.httpError st msg =>
      (1, ⟨st, RespBody.upstreamErr (jsStrOr msg "無法取得天氣資料")⟩)
    | UpstreamResult.ok records =>
      match records.location.head? with
      | none =>
        (1, ⟨404, RespBody.noData
          ("無法取得 " ++ target.display ++ " 的天氣資料，請確認 CWA API 來源是否正常。")⟩)
      | some locationData =>
        match normalize locationData with
        | none => (1, ⟨500, RespBody.serverError "無法取得天氣資料，請稍後再試"⟩)
        | some fs =>
          (1, ⟨200, RespBody.success locationData.locationName cityCode
            records.datasetDescription fs⟩)

/-- The terminal 404 middleware of `server.js` (unknown path). -/
def notFoundResponse : Response := ⟨404, RespBody.notFound "請確認網址是否正確"⟩

/-- The six element tags recognized by the `switch` statement. -/
def recognizedTags : List String := ["Wx", "PoP", "MinT", "MaxT", "CI", "WS"]

/-- The forecast field written for a recognized tag. -/
def tagField : String → Forecast → String
  | "Wx", f => f.weather
  | "PoP", f => f.rain
  | "MinT", f => f.minTemp
  | "MaxT", f => f.maxTemp
  | "CI", f => f.comfort
  | "WS", f => f.windSpeed
  | _, _ => ""

/-- The formatting applied before a value is stored: `%` for `PoP`, `°C` for
the temperatures, the raw value otherwise. -/
def tagFormat : String → String → String
  | "PoP", v => v ++ "%"
  | "MinT", v => v ++ "°C"
  | "MaxT", v => v ++ "°C"
  | _, v => v

/-- The parameter value `element.time[i].parameter.parameterName` (empty when
out of range; only used in statements under alignment hypotheses that make
the access in range). -/
def paramAt (e : WeatherElement) (i : Nat) : String :=
  ((e.time[i]?).getD ⟨"", "", ⟨""⟩⟩).parameter.parameterName

/-- Total version of the `forEach` body at interval `i`, meaningful when all
elements reach index `i`. -/
def applyElementsPure (i : Nat) : Forecast → List WeatherElement → Forecast
  | f, [] => f
  | f, e :: es => applyElementsPure i (setField e.elementName (paramAt e i) f) es

/-- Value of the last element carrying tag `t` (parameter read at interval
`i`), threading an accumulator the way the `switch` overwrites fields. -/
def lastTagParam (t : String) (i : Nat) : Option String → List WeatherElement → Option String
  | acc, [] => acc
  | acc, e :: es =>
    lastTagParam t i (if e.elementName = t then some (paramAt e i) else acc) es

theorem startTime_setField (name v : String) (f : Forecast) :
    (setField name v f).startTime = f.startTime := by
  unfold setField; split <;> rfl

theorem endTime_setField (name v : String) (f : Forecast) :
    (setField name v f).endTime = f.endTime := by
  unfold setField; split <;> rfl

theorem setField_unrecognized (name v : String) (f : Forecast)
    (h : ¬ name ∈ recognizedTags) : setField name v f = f := by
  unfold setField
  split <;> simp_all [recognizedTags]

theorem tagField_setField (t : String) (ht : t ∈ recognizedTags) (name v : String)
    (f : Forecast) :
    tagField t (setField name v f) = if name = t then tagFormat t v else tagField t f := by
  simp only [recognizedTags, List.mem_cons, List.not_mem_nil, or_false] at ht
  rcases ht with h | h | h | h | h | h <;> subst h <;>
    (unfold setField; split <;> simp_all [tagField, tagFormat])

theorem tagField_initForecast (t : String) (e : TimeEntry) :
    tagField t (initForecast e) = "" := by
  unfold tagField
  split <;> rfl

theorem applyElements_of_aligned (i : Nat) (l : List WeatherElement) :
    ∀ f : Forecast, (∀ e ∈ l, i < e.time.length) →
      applyElements i f l = some (applyElementsPure i f l) := by
  induction l with
  | nil => intro f _; rfl
  | cons e es ih =>
    intro f h
    have he : i < e.time.length := h e (List.mem_cons_self e es)
    have : e.time[i]? = some (e.time.get ⟨i, he⟩) := List.getElem?_eq_getElem he
    simp only [applyElements, applyElementsPure, this]
    have hp : paramAt e i = (e.time.get ⟨i, he⟩).parameter.parameterName := by
      simp [paramAt, this]
    rw [hp]
    exact ih _ (fun e' he' => h e' (List.mem_cons_of_mem e he'))

theorem startTime_applyElementsPure (i : Nat) (l : List WeatherElement) :
    ∀ f : Forecast, (applyElementsPure i f l).startTime = f.startTime := by
  induction l with
  | nil => intro f; rfl
  | cons e es ih =>
    intro f
    simp only [applyElementsPure]
    rw [ih, startTime_setField]

theorem endTime_applyElementsPure (i : Nat) (l : List WeatherElement) :
    ∀ f : Forecast, (applyElementsPure i f l).endTime = f.endTime := by
  induction l with
  | nil => intro f; rfl
  | cons e es ih =>
    intro f
    simp only [applyElementsPure]
    rw [ih, endTime_setField]

theorem lastTagParam_init (t : String) (i : Nat) (l : List WeatherElement) :
    ∀ acc : Option String,
      lastTagParam t i acc l =
        match lastTagParam t i none l with
        | none => acc
        | some v => some v := by
  induction l with
  | nil => intro acc; simp [lastTagParam]
  | cons e es ih =>
    intro acc
    simp only [lastTagParam]
    rw [ih, ih (if e.elementName = t then some (paramAt e i) else none)]
    by_cases h : e.elementName = t <;>
      cases hrec : lastTagParam t i none es <;> simp [h, hrec]

theorem lastTagParam_of_absent (t : String) (i : Nat) (l : List WeatherElement)
    (h : ∀ e ∈ l, e.elementName ≠ t) : lastTagParam t i none l = none := by
  induction l with
  | nil => rfl
  | cons e es ih =>
    have he : e.elementName ≠ t := h e (List.mem_cons_self e es)
    simp only [lastTagParam, if_neg he]
    exact ih (fun e' he' => h e' (List.mem_cons_of_mem e he'))

theorem tagField_applyElementsPure (t : String) (ht : t ∈ recognizedTags) (i : Nat)
    (l : List WeatherElement) :
    ∀ f : Forecast,
      tagField t (applyElementsPure i f l) =
        match lastTagParam t i none l with
        | some v => tagFormat t v
        | none => tagField t f := by
  induction l with
  | nil => intro f; rfl
  | cons e es ih =>
    intro f
    simp only [applyElementsPure, lastTagParam]
    rw [ih, lastTagParam_init t i es (if e.elementName = t then some (paramAt e i) else none)]
    by_cases h : e.elementName = t <;>
      cases hrec : lastTagParam t i none es <;>
        simp [h, hrec, tagField_setField t ht]

/-- The forecast produced for interval `i` of an aligned record. -/
def forecastAt (elements : List WeatherElement) (first : WeatherElement) (i : Nat) : Forecast :=
  applyElementsPure i (initForecast ((first.time[i]?).getD ⟨"", "", ⟨""⟩⟩)) elements

theorem buildForecast_of_aligned (elements : List WeatherElement) (first : WeatherElement)
    (i : Nat) (hi : i < first.time.length) (h : ∀ e ∈ elements, i < e.time.length) :
    buildForecast elements first i = some (forecastAt elements first i) := by
  have hf : first.time[i]? = some (first.time.get ⟨i, hi⟩) := List.getElem?_eq_getElem hi
  simp only [buildForecast, forecastAt, hf, Option.getD_some]
  exact applyElements_of_aligned i elements _ h

theorem collectForecasts_of_forall (elements : List WeatherElement) (first : WeatherElement)
    (g : Nat → Forecast) :
    ∀ is : List Nat, (∀ i ∈ is, buildForecast elements first i = some (g i)) →
      collectForecasts elements first is = some (is.map g) := by
  intro is
  induction is with
  | nil => intro _; rfl
  | cons i is ih =>
    intro h
    have hi : buildForecast elements first i = some (g i) := h i (List.mem_cons_self i is)
    simp only [collectForecasts, hi, List.map_cons]
    rw [ih (fun j hj => h j (List.mem_cons_of_mem i hj))]
    rfl

theorem normalize_of_aligned (loc : LocationData) (first : WeatherElement)
    (rest : List WeatherElement) (hel : loc.weatherElement = first :: rest)
    (halign : ∀ e ∈ loc.weatherElement, first.time.length ≤ e.time.length) :
    normalize loc =
      some ((List.range first.time.length).map (forecastAt loc.weatherElement first)) := by
  simp only [normalize, hel]
  rw [← hel]
  apply collectForecasts_of_forall
  intro i hi
  rw [List.mem_range] at hi
  exact buildForecast_of_aligned loc.weatherElement first i hi
    (fun e he => Nat.lt_of_lt_of_le hi (halign e he))

theorem applyElements_eq_none_iff (i : Nat) (l : List WeatherElement) :
    ∀ f : Forecast, (applyElements i f l = none ↔ ∃ e ∈ l, e.time.length ≤ i) := by
  induction l with
  | nil => intro f; simp [applyElements]
  | cons e es ih =>
    intro f
    simp only [applyElements]
    cases he : e.time[i]? with
    | none =>
      have : e.time.length ≤ i := by
        by_contra hlt
        rw [List.getElem?_eq_getElem (Nat.lt_of_not_le hlt)] at he
        exact Option.noConfusion he
      simp only [List.mem_cons]
      constructor
      · intro _; exact ⟨e, Or.inl rfl, this⟩
      · intro _; trivial
    | some entry =>
      rw [ih]
      have hlt : i < e.time.length := by
        by_contra hle
        rw [List.getElem?_eq_none (Nat.le_of_not_lt hle)] at he
        exact Option.noConfusion he
      constructor
      · rintro ⟨e', he', hle'⟩
        exact ⟨e', List.mem_cons_of_mem e he', hle'⟩
      · rintro ⟨e', he', hle'⟩
        rcases List.mem_cons.mp he' with h | h
        · subst h; exact absurd hle' (Nat.not_le_of_lt hlt)
        · exact ⟨e', h, hle'⟩

theorem buildForecast_eq_none_iff (elements : List WeatherElement) (first : WeatherElement)
    (i : Nat) :
    (buildForecast elements first i = none ↔
      first.time.length ≤ i ∨ ∃ e ∈ elements, e.time.length ≤ i) := by
  simp only [buildForecast]
  cases hf : first.time[i]? with
  | none =>
    have : first.time.length ≤ i := by
      by_contra hlt
      rw [List.getElem?_eq_getElem (Nat.lt_of_not_le hlt)] at hf
      exact Option.noConfusion hf
    simp [this]
  | some t0 =>
    have hlt : i < first.time.length := by
      by_contra hle
      rw [List.getElem?_eq_none (Nat.le_of_not_lt hle)] at hf
      exact Option.noConfusion hf
    rw [applyElements_eq_none_iff]
    simp [Nat.not_le_of_lt hlt]

theorem collectForecasts_eq_none_iff (elements : List WeatherElement) (first : WeatherElement) :
    ∀ is : List Nat,
      (collectForecasts elements first is = none ↔
        ∃ i ∈ is, buildForecast elements first i = none) := by
  intro is
  induction is with
  | nil => simp [collectForecasts]
  | cons i is ih =>
    cases hb : buildForecast elements first i with
    | none => simp [collectForecasts, hb]
    | some f =>
      simp only [collectForecasts, hb, Option.map_eq_none']
      rw [ih]
      simp only [List.mem_cons]
      constructor
      · rintro ⟨j, hj, hbj⟩
        exact ⟨j, Or.inr hj, hbj⟩
      · rintro ⟨j, hj, hbj⟩
        rcases hj with h | h
        · subst h; rw [hb] at hbj; exact Option.noConfusion hbj
        · exact ⟨j, h, hbj⟩

theorem normalize_eq_none_iff (loc : LocationData) :
    (normalize loc = none ↔
      match loc.weatherElement with
      | [] => True
      | first :: _ => ∃ e ∈ loc.weatherElement, e.time.length < first.time.length) := by
  cases hel : loc.weatherElement with
  | nil => simp [normalize, hel]
  | cons first rest =>
    simp only [normalize, hel]
    rw [collectForecasts_eq_none_iff]
    constructor
    · rintro ⟨i, hi, hb⟩
      rw [List.mem_range] at hi
      rcases (buildForecast_eq_none_iff _ _ _).mp hb with h | ⟨e, he, hle⟩
      · exact absurd hi (Nat.not_lt_of_le h)
      · exact ⟨e, he, Nat.lt_of_le_of_lt hle hi⟩
    · rintro ⟨e, he, hlt⟩
      refine ⟨e.time.length, List.mem_range.mpr hlt, ?_⟩
      apply (buildForecast_eq_none_iff _ _ _).mpr
      right
      exact ⟨e, he, Nat.le_refl _⟩

theorem lastTagParam_of_nodup (t : String) (i : Nat) (l : List WeatherElement)
    (hnd : (l.map (fun e => e.elementName)).Nodup) (e : WeatherElement) (he : e ∈ l)
    (hname : e.elementName = t) : lastTagParam t i none l = some (paramAt e i) := by
  induction l with
  | nil => exact absurd he (List.not_mem_nil e)
  | cons a es ih =>
    rw [List.map_cons, List.nodup_cons] at hnd
    rcases List.mem_cons.mp he with h | h
    · subst h
      simp only [lastTagParam, if_pos hname]
      rw [lastTagParam_init]
      have : lastTagParam t i none es = none := by
        apply lastTagParam_of_absent
        intro e' he' hne'
        exact hnd.1 (by rw [hname, ← hne']; exact List.mem_map_of_mem _ he')
      rw [this]
    · have hat : a.elementName ≠ t := by
        intro hq
        exact hnd.1 (by rw [hq, ← hname]; exact List.mem_map_of_mem _ h)
      simp only [lastTagParam, if_neg hat]
      exact ih hnd.2 h

theorem lastTagParam_append_last (t : String) (i : Nat) (l₁ l₂ : List WeatherElement)
    (e : WeatherElement) (hname : e.elementName = t)
    (habs : ∀ e' ∈ l₂, e'.elementName ≠ t) :
    lastTagParam t i none (l₁ ++ e :: l₂) = some (paramAt e i) := by
  induction l₁ with
  | nil =>
    simp only [List.nil_append, lastTagParam, if_pos hname]
    rw [lastTagParam_init, lastTagParam_of_absent t i l₂ habs]
  | cons a l₁ ih =>
    simp only [List.cons_append, lastTagParam]
    rw [lastTagParam_init]
    simp only [List.append_eq]
    rw [ih]

theorem applyElementsPure_append (i : Nat) (l₁ l₂ : List WeatherElement) :
    ∀ f : Forecast,
      applyElementsPure i f (l₁ ++ l₂) = applyElementsPure i (applyElementsPure i f l₁) l₂ := by
  induction l₁ with
  | nil => intro f; rfl
  | cons a l₁ ih =>
    intro f
    simp only [List.cons_append, applyElementsPure]
    exact ih _

/-- Claim C4: whenever the city code resolves to a configured name and the
upstream credential is absent or empty, the handler terminates with the
misconfiguration response (HTTP 500) and performs zero outbound calls,
whatever the upstream oracle would have answered. -/
theorem credential_missing_no_outbound_call (apiKey : Option String)
    (upstream : UpstreamResult) (code name : String)
    (hres : CITY_MAP.lookup code = some name) (hkey : jsTruthyStr apiKey = false) :
    getCityWeather apiKey upstream code =
      (0, ⟨500, RespBody.misconfigured "請在 .env 檔案中設定 CWA_API_KEY"⟩) := by
  simp [getCityWeather, cityLookup, hres, JsLookup.truthy, hkey]

/-- Witness for C4: unset credential, code `taipei`, upstream would have
failed at transport level but is never called. -/
theorem credential_missing_no_outbound_call_witness :
    getCityWeather none UpstreamResult.transport "taipei" =
      (0, ⟨500, RespBody.misconfigured "請在 .env 檔案中設定 CWA_API_KEY"⟩) :=
  credential_missing_no_outbound_call none UpstreamResult.transport "taipei" "臺北市"
    (by decide) (by decide)

/-- Claim C6: with a resolving code, a configured credential and an upstream
payload containing zero location entries, the handler returns HTTP 404 and
the message echoes the resolved Chinese city name. -/
theorem zero_locations_not_found (apiKey : Option String) (code name desc : String)
    (hres : CITY_MAP.lookup code = some name) (hkey : jsTruthyStr apiKey = true) :
    getCityWeather apiKey (UpstreamResult.ok ⟨desc, []⟩) code =
      (1, ⟨404, RespBody.noData
        ("無法取得 " ++ name ++ " 的天氣資料，請確認 CWA API 來源是否正常。")⟩) := by
  simp [getCityWeather, cityLookup, hres, JsLookup.truthy, hkey, JsLookup.display]

/-- Witness for C6: code `tainan` resolving to `臺南市`, empty location
array. -/
theorem zero_locations_not_found_witness :
    getCityWeather (some "k") (UpstreamResult.ok ⟨"d", []⟩) "tainan" =
      (1, ⟨404, RespBody.noData
        ("無法取得 臺南市 的天氣資料，請確認 CWA API 來源是否正常。")⟩) :=
  zero_locations_not_found (some "k") "tainan" "臺南市" "d" (by decide) (by decide)

/-- Claim C2 (code bug): `CITY_MAP[cityCode]` is a JavaScript property read,
so the inherited members of `Object.prototype` are truthy for codes such as
`"constructor"` even though they are not configured city codes. The handler
then proceeds past validation and performs the outbound call instead of
returning the 400 invalid-code response; a genuinely unknown code like
`"atlantis"` does get 400. Every configured code still resolves to exactly
its documented name. -/
theorem city_lookup_prototype_leak :
    CITY_MAP.lookup "constructor" = none ∧
    (∀ p ∈ CITY_MAP, cityLookup p.1 = JsLookup.ownStr p.2) ∧
    (getCityWeather (some "k") (UpstreamResult.ok ⟨"d", []⟩) "constructor").1 = 1 ∧
    (getCityWeather (some "k") (UpstreamResult.ok ⟨"d", []⟩) "constructor").2.status = 404 ∧
    (getCityWeather (some "k") (UpstreamResult.ok ⟨"d", []⟩) "atlantis").2.status = 400 := by
  decide

/-- Claim C5 counterexample: when the upstream reports a non-success status
with an empty `message`, the handler substitutes its fixed fallback text, so
the upstream message is not passed through verbatim. -/
theorem upstream_empty_message_replaced :
    getCityWeather (some "key") (UpstreamResult.httpError 403 (some "")) "taipei" =
      (1, ⟨403, RespBody.upstreamErr "無法取得天氣資料"⟩) ∧
    ("無法取得天氣資料" : String) ≠ "" := by
  decide

/-- Claim C5 (amended): the HTTP status mirrors the failure category — 400
for an invalid city code, 500 for misconfiguration and generic server
errors, 404 for no data and for unknown paths — and on an upstream-reported
failure the response carries the upstream status verbatim together with the
upstream message when that message is a non-empty string, and the fixed
fallback text otherwise. -/
theorem status_mirrors_category (apiKey : Option String) (upstream : UpstreamResult)
    (code : String) :
    ((∃ m, ((getCityWeather apiKey upstream code).2).body = RespBody.invalidCity m) →
      ((getCityWeather apiKey upstream code).2).status = 400) ∧
    ((∃ m, ((getCityWeather apiKey upstream code).2).body = RespBody.misconfigured m) →
      ((getCityWeather apiKey upstream code).2).status = 500) ∧
    ((∃ m, ((getCityWeather apiKey upstream code).2).body = RespBody.serverError m) →
      ((getCityWeather apiKey upstream code).2).status = 500) ∧
    ((∃ m, ((getCityWeather apiKey upstream code).2).body = RespBody.noData m) →
      ((getCityWeather apiKey upstream code).2).status = 404) ∧
    ((∃ m, ((getCityWeather apiKey upstream code).2).body = RespBody.upstreamErr m) →
      ∃ st msg, upstream = UpstreamResult.httpError st msg ∧
        ((getCityWeather apiKey upstream code).2).status = st ∧
        ((getCityWeather apiKey upstream code).2).body =
          RespBody.upstreamErr (jsStrOr msg "無法取得天氣資料")) ∧
    notFoundResponse.status = 404 := by
  by_cases h1 : (cityLookup code).truthy = false
  · simp [getCityWeather, h1, notFoundResponse]
  · by_cases h2 : jsTruthyStr apiKey = false
    · simp [getCityWeather, h1, h2, notFoundResponse]
    · cases upstream with
      | transport => simp [getCityWeather, h1, h2, notFoundResponse]
      | httpError st msg =>
        simp [getCityWeather, h1, h2, notFoundResponse]
        exact ⟨st, msg, ⟨rfl, rfl⟩, rfl, rfl⟩
      | ok records =>
        cases hloc : records.location.head? with
        | none => simp [getCityWeather, h1, h2, hloc, notFoundResponse]
        | some locationData =>
          cases hn : normalize locationData with
          | none => simp [getCityWeather, h1, h2, hloc, hn, notFoundResponse]
          | some fs => simp [getCityWeather, h1, h2, hloc, hn, notFoundResponse]

/-- Witness for C5: an upstream 418 with a non-empty message is passed
through with its own status and message. -/
theorem status_mirrors_category_witness :
    ∃ st msg, UpstreamResult.httpError 418 (some "teapot") = UpstreamResult.httpError st msg ∧
      ((getCityWeather (some "k") (UpstreamResult.httpError 418 (some "teapot")) "taipei").2).status = st ∧
      ((getCityWeather (some "k") (UpstreamResult.httpError 418 (some "teapot")) "taipei").2).body =
        RespBody.upstreamErr (jsStrOr msg "無法取得天氣資料") :=
  (status_mirrors_category (some "k") (UpstreamResult.httpError 418 (some "teapot"))
    "taipei").2.2.2.2.1 ⟨"teapot", by decide⟩

theorem getElem?_map_range {α : Type} (g : Nat → α) (N i : Nat) (hi : i < N) :
    ((List.range N).map g)[i]? = some (g i) := by
  rw [List.getElem?_map, List.getElem?_range hi]
  rfl

/-- A location record whose two elements have time series of lengths 1 and 2. -/
def mismatchLoc : LocationData :=
  ⟨"臺北市",
   [⟨"Wx", [⟨"s1", "t1", ⟨"晴"⟩⟩]⟩,
    ⟨"PoP", [⟨"s1", "t1", ⟨"10"⟩⟩, ⟨"s2", "t2", ⟨"20"⟩⟩]⟩]⟩

/-- Claim C1 counterexample: a record whose second element's time-series
length (2) differs from the first element's (1) does not make normalization
fail — it succeeds and emits one interval, truncating the longer element. -/
theorem mismatched_lengths_can_succeed :
    (∃ e ∈ mismatchLoc.weatherElement, ∃ e2 ∈ mismatchLoc.weatherElement,
        e.time.length ≠ e2.time.length) ∧
    normalize mismatchLoc = some [⟨"s1", "t1", "晴", "10%", "", "", "", ""⟩] := by
  decide

/-- Claim C1 (amended): normalization fails — throwing before any output is
produced, so no partial interval list is ever emitted — exactly when the
record has zero weather elements or some element's time series is strictly
shorter than the first element's; an element longer than the first does not
cause a failure (its extra entries are ignored). -/
theorem normalize_fails_iff_empty_or_short (loc : LocationData) :
    (normalize loc = none ↔
      match loc.weatherElement with
      | [] => True
      | first :: _ => ∃ e ∈ loc.weatherElement, e.time.length < first.time.length) :=
  normalize_eq_none_iff loc

/-- Claim C9: on an aligned record, normalization succeeds, produces exactly
one forecast per time entry, and the `i`-th forecast takes its start and end
times from the first element's `i`-th entry — upstream order, no
re-sorting. -/
theorem forecasts_preserve_time_order (loc : LocationData) (first : WeatherElement)
    (rest : List WeatherElement) (hel : loc.weatherElement = first :: rest)
    (halign : ∀ e ∈ loc.weatherElement, e.time.length = first.time.length) :
    ∃ fs, normalize loc = some fs ∧ fs.length = first.time.length ∧
      ∀ i, i < first.time.length →
        (fs[i]?.map Forecast.startTime = (first.time[i]?).map TimeEntry.startTime ∧
         fs[i]?.map Forecast.endTime = (first.time[i]?).map TimeEntry.endTime) := by
  have hle : ∀ e ∈ loc.weatherElement, first.time.length ≤ e.time.length :=
    fun e he => Nat.le_of_eq (halign e he).symm
  refine ⟨_, normalize_of_aligned loc first rest hel hle, by simp, ?_⟩
  intro i hi
  rw [getElem?_map_range _ _ i hi]
  have ht : first.time[i]? = some (first.time.get ⟨i, hi⟩) := List.getElem?_eq_getElem hi
  rw [ht]
  constructor
  · simp only [Option.map_some', Option.some.injEq]
    rw [forecastAt, startTime_applyElementsPure, ht]
    rfl
  · simp only [Option.map_some', Option.some.injEq]
    rw [forecastAt, endTime_applyElementsPure, ht]
    rfl

/-- Witness for C9: a two-interval record with two elements. -/
theorem forecasts_preserve_time_order_witness :
    ∃ fs,
      normalize ⟨"高雄市",
        [⟨"Wx", [⟨"a1", "b1", ⟨"晴"⟩⟩, ⟨"a2", "b2", ⟨"陰"⟩⟩]⟩,
         ⟨"CI", [⟨"a1", "b1", ⟨"舒適"⟩⟩, ⟨"a2", "b2", ⟨"悶熱"⟩⟩]⟩]⟩ = some fs ∧
      fs.length = 2 ∧
      ∀ i, i < 2 →
        (fs[i]?.map Forecast.startTime =
          (([⟨"a1", "b1", ⟨"晴"⟩⟩, ⟨"a2", "b2", ⟨"陰"⟩⟩] : List TimeEntry)[i]?).map TimeEntry.startTime ∧
         fs[i]?.map Forecast.endTime =
          (([⟨"a1", "b1", ⟨"晴"⟩⟩, ⟨"a2", "b2", ⟨"陰"⟩⟩] : List TimeEntry)[i]?).map TimeEntry.endTime) :=
  forecasts_preserve_time_order _ ⟨"Wx", [⟨"a1", "b1", ⟨"晴"⟩⟩, ⟨"a2", "b2", ⟨"陰"⟩⟩]⟩
    [⟨"CI", [⟨"a1", "b1", ⟨"舒適"⟩⟩, ⟨"a2", "b2", ⟨"悶熱"⟩⟩]⟩] rfl (by decide)

/-- Claim C3: on an aligned record with `N` time entries whose element tags
are exactly {Wx, PoP, MinT, MaxT, CI, WS} (a permutation of the six, hence
no duplicates), normalization emits exactly `N` intervals; in each, the rain
field is the PoP parameter value with `%` appended and the two temperature
fields are the MinT/MaxT parameter values with `°C` appended. -/
theorem six_tags_full_output (loc : LocationData) (first : WeatherElement)
    (rest : List WeatherElement) (hel : loc.weatherElement = first :: rest)
    (halign : ∀ e ∈ loc.weatherElement, e.time.length = first.time.length)
    (htags : List.Perm (loc.weatherElement.map (fun e => e.elementName)) recognizedTags) :
    ∃ fs, normalize loc = some fs ∧ fs.length = first.time.length ∧
      ∀ i, i < first.time.length → ∀ f, fs[i]? = some f →
        ∀ e ∈ loc.weatherElement,
          (e.elementName = "PoP" → f.rain = paramAt e i ++ "%") ∧
          (e.elementName = "MinT" → f.minTemp = paramAt e i ++ "°C") ∧
          (e.elementName = "MaxT" → f.maxTemp = paramAt e i ++ "°C") := by
  have hle : ∀ e ∈ loc.weatherElement, first.time.length ≤ e.time.length :=
    fun e he => Nat.le_of_eq (halign e he).symm
  have hnd : (loc.weatherElement.map (fun e => e.elementName)).Nodup :=
    (List.Perm.nodup_iff htags).mpr (by decide)
  refine ⟨_, normalize_of_aligned loc first rest hel hle, by simp, ?_⟩
  intro i hi f hf e he
  rw [getElem?_map_range _ _ i hi] at hf
  have hfeq : f = forecastAt loc.weatherElement first i := by
    injection hf with h
    exact h.symm
  subst hfeq
  refine ⟨?_, ?_, ?_⟩
  · intro hn
    have h := tagField_applyElementsPure "PoP" (by decide) i loc.weatherElement
      (initForecast ((first.time[i]?).getD ⟨"", "", ⟨""⟩⟩))
    rw [lastTagParam_of_nodup "PoP" i _ hnd e he hn] at h
    simpa [tagField, tagFormat, forecastAt] using h
  · intro hn
    have h := tagField_applyElementsPure "MinT" (by decide) i loc.weatherElement
      (initForecast ((first.time[i]?).getD ⟨"", "", ⟨""⟩⟩))
    rw [lastTagParam_of_nodup "MinT" i _ hnd e he hn] at h
    simpa [tagField, tagFormat, forecastAt] using h
  · intro hn
    have h := tagField_applyElementsPure "MaxT" (by decide) i loc.weatherElement
      (initForecast ((first.time[i]?).getD ⟨"", "", ⟨""⟩⟩))
    rw [lastTagParam_of_nodup "MaxT" i _ hnd e he hn] at h
    simpa [tagField, tagFormat, forecastAt] using h

/-- A sample aligned record carrying all six recognized tags once. -/
def sixTagLoc : LocationData :=
  ⟨"臺中市",
   [⟨"Wx", [⟨"a", "b", ⟨"晴"⟩⟩]⟩, ⟨"PoP", [⟨"a", "b", ⟨"30"⟩⟩]⟩,
    ⟨"MinT", [⟨"a", "b", ⟨"22"⟩⟩]⟩, ⟨"MaxT", [⟨"a", "b", ⟨"28"⟩⟩]⟩,
    ⟨"CI", [⟨"a", "b", ⟨"舒適"⟩⟩]⟩, ⟨"WS", [⟨"a", "b", ⟨"3"⟩⟩]⟩]⟩

/-- Witness for C3: all six tags, one time entry each. -/
theorem six_tags_full_output_witness :
    ∃ fs, normalize sixTagLoc = some fs ∧ fs.length = 1 ∧
      ∀ i, i < 1 → ∀ f, fs[i]? = some f →
        ∀ e ∈ sixTagLoc.weatherElement,
          (e.elementName = "PoP" → f.rain = paramAt e i ++ "%") ∧
          (e.elementName = "MinT" → f.minTemp = paramAt e i ++ "°C") ∧
          (e.elementName = "MaxT" → f.maxTemp = paramAt e i ++ "°C") :=
  six_tags_full_output sixTagLoc ⟨"Wx", [⟨"a", "b", ⟨"晴"⟩⟩]⟩
    [⟨"PoP", [⟨"a", "b", ⟨"30"⟩⟩]⟩, ⟨"MinT", [⟨"a", "b", ⟨"22"⟩⟩]⟩,
     ⟨"MaxT", [⟨"a", "b", ⟨"28"⟩⟩]⟩, ⟨"CI", [⟨"a", "b", ⟨"舒適"⟩⟩]⟩,
     ⟨"WS", [⟨"a", "b", ⟨"3"⟩⟩]⟩] rfl (by decide) (by decide)

/-- Claim C7: on an aligned record, a recognized tag that no element carries
leaves the corresponding field of every produced interval equal to the empty
string (in this typed model every field is always present and non-null, so
emptiness is the whole content of the claim). -/
theorem absent_tag_field_empty (loc : LocationData) (first : WeatherElement)
    (rest : List WeatherElement) (t : String) (hel : loc.weatherElement = first :: rest)
    (halign : ∀ e ∈ loc.weatherElement, e.time.length = first.time.length)
    (ht : t ∈ recognizedTags)
    (habs : ∀ e ∈ loc.weatherElement, e.elementName ≠ t) :
    ∃ fs, normalize loc = some fs ∧ ∀ f ∈ fs, tagField t f = "" := by
  have hle : ∀ e ∈ loc.weatherElement, first.time.length ≤ e.time.length :=
    fun e he => Nat.le_of_eq (halign e he).symm
  refine ⟨_, normalize_of_aligned loc first rest hel hle, ?_⟩
  intro f hf
  rcases List.mem_map.mp hf with ⟨i, hi, rfl⟩
  rw [forecastAt, tagField_applyElementsPure t ht i]
  rw [lastTagParam_of_absent t i _ habs]
  exact tagField_initForecast t _

/-- Witness for C7: a record carrying only `Wx`; the rain field (`PoP`) of
every interval is empty. -/
theorem absent_tag_field_empty_witness :
    ∃ fs,
      normalize ⟨"基隆市", [⟨"Wx", [⟨"a", "b", ⟨"雨"⟩⟩]⟩]⟩ = some fs ∧
      ∀ f ∈ fs, tagField "PoP" f = "" :=
  absent_tag_field_empty _ ⟨"Wx", [⟨"a", "b", ⟨"雨"⟩⟩]⟩ [] "PoP" rfl (by decide)
    (by decide) (by decide)

theorem normalize_of_aligned_tc (loc : LocationData) (first : WeatherElement)
    (rest : List WeatherElement) (tc : Nat) (hel : loc.weatherElement = first :: rest)
    (halign : ∀ e ∈ loc.weatherElement, e.time.length = tc) :
    normalize loc = some ((List.range tc).map (forecastAt loc.weatherElement first)) := by
  have h1 : first.time.length = tc :=
    halign first (by rw [hel]; exact List.mem_cons_self _ _)
  have hle : ∀ e ∈ loc.weatherElement, first.time.length ≤ e.time.length := fun e he => by
    rw [h1, halign e he]
  rw [normalize_of_aligned loc first rest hel hle, h1]

theorem applyElementsPure_middle_unrecognized (i : Nat) (l₁ l₂ : List WeatherElement)
    (e : WeatherElement) (htag : ¬ e.elementName ∈ recognizedTags) (f : Forecast) :
    applyElementsPure i f (l₁ ++ e :: l₂) = applyElementsPure i f (l₁ ++ l₂) := by
  rw [applyElementsPure_append, applyElementsPure_append]
  simp only [applyElementsPure]
  rw [setField_unrecognized _ _ _ htag]

/-- Claim C8: on an aligned record containing an element whose tag is outside
the recognized six, normalization succeeds without error, and the output is
unchanged when that element's parameter values are replaced by anything (same
tag, same interval times): the unrecognized element's values never reach any
output field. -/
theorem unrecognized_tag_ignored (loc loc' : LocationData) (l₁ l₂ : List WeatherElement)
    (e e' : WeatherElement) (tc : Nat)
    (hel : loc.weatherElement = l₁ ++ e :: l₂)
    (hel' : loc'.weatherElement = l₁ ++ e' :: l₂)
    (htag : ¬ e.elementName ∈ recognizedTags)
    (hname : e'.elementName = e.elementName)
    (hlen : e'.time.length = e.time.length)
    (hstart : ∀ i : Nat,
      (e.time[i]?).map TimeEntry.startTime = (e'.time[i]?).map TimeEntry.startTime)
    (hend : ∀ i : Nat,
      (e.time[i]?).map TimeEntry.endTime = (e'.time[i]?).map TimeEntry.endTime)
    (halign : ∀ el ∈ loc.weatherElement, el.time.length = tc) :
    (∃ fs, normalize loc = some fs ∧ fs.length = tc) ∧ normalize loc = normalize loc' := by
  have hmem_e : e ∈ loc.weatherElement := by
    rw [hel]; exact List.mem_append_right _ (List.mem_cons_self _ _)
  have htc_e : e.time.length = tc := halign e hmem_e
  have halign' : ∀ el ∈ loc'.weatherElement, el.time.length = tc := by
    intro el hmem
    rw [hel'] at hmem
    rcases List.mem_append.mp hmem with h | h
    · exact halign el (by rw [hel]; exact List.mem_append_left _ h)
    · rcases List.mem_cons.mp h with h | h
      · subst h; rw [hlen, htc_e]
      · exact halign el (by rw [hel]; exact List.mem_append_right _ (List.mem_cons_of_mem _ h))
  cases l₁ with
  | nil =>
    simp only [List.nil_append] at hel hel'
    have hn := normalize_of_aligned_tc loc e l₂ tc hel halign
    have hn' := normalize_of_aligned_tc loc' e' l₂ tc hel' halign'
    refine ⟨⟨_, hn, by simp⟩, ?_⟩
    rw [hn, hn']
    congr 1
    apply List.map_congr_left
    intro i hi
    rw [List.mem_range] at hi
    have hie : i < e.time.length := by rw [htc_e]; exact hi
    have hie' : i < e'.time.length := by rw [hlen, htc_e]; exact hi
    have hse : e.time[i]? = some (e.time.get ⟨i, hie⟩) := List.getElem?_eq_getElem hie
    have hse' : e'.time[i]? = some (e'.time.get ⟨i, hie'⟩) := List.getElem?_eq_getElem hie'
    have h1 := hstart i
    have h2 := hend i
    rw [hse, hse'] at h1 h2
    simp only [Option.map_some', Option.some.injEq] at h1 h2
    have hinit : initForecast ((e.time[i]?).getD ⟨"", "", ⟨""⟩⟩) =
        initForecast ((e'.time[i]?).getD ⟨"", "", ⟨""⟩⟩) := by
      simp only [List.get_eq_getElem] at h1 h2
      simp [initForecast, hse, hse', h1, h2]
    rw [forecastAt, forecastAt, hel, hel', hinit]
    simp only [applyElementsPure]
    rw [setField_unrecognized _ _ _ htag,
      setField_unrecognized _ _ _ (by rw [hname]; exact htag)]
  | cons a l₁t =>
    have helc : loc.weatherElement = a :: (l₁t ++ e :: l₂) := by rw [hel]; rfl
    have helc' : loc'.weatherElement = a :: (l₁t ++ e' :: l₂) := by rw [hel']; rfl
    have hn := normalize_of_aligned_tc loc a _ tc helc halign
    have hn' := normalize_of_aligned_tc loc' a _ tc helc' halign'
    refine ⟨⟨_, hn, by simp⟩, ?_⟩
    rw [hn, hn']
    congr 1
    apply List.map_congr_left
    intro i _
    rw [forecastAt, forecastAt, hel, hel']
    rw [applyElementsPure_middle_unrecognized i (a :: l₁t) l₂ e htag]
    rw [applyElementsPure_middle_unrecognized i (a :: l₁t) l₂ e'
      (by rw [hname]; exact htag)]

/-- Witness for C8: a record carrying an unrecognized `UVI` element; changing
its parameter value from 5 to 99 leaves the normalized output unchanged. -/
theorem unrecognized_tag_ignored_witness :
    (∃ fs,
      normalize ⟨"澎湖縣", [⟨"Wx", [⟨"a", "b", ⟨"晴"⟩⟩]⟩, ⟨"UVI", [⟨"a", "b", ⟨"5"⟩⟩]⟩]⟩ =
        some fs ∧ fs.length = 1) ∧
    normalize ⟨"澎湖縣", [⟨"Wx", [⟨"a", "b", ⟨"晴"⟩⟩]⟩, ⟨"UVI", [⟨"a", "b", ⟨"5"⟩⟩]⟩]⟩ =
      normalize ⟨"澎湖縣", [⟨"Wx", [⟨"a", "b", ⟨"晴"⟩⟩]⟩, ⟨"UVI", [⟨"a", "b", ⟨"99"⟩⟩]⟩]⟩ :=
  unrecognized_tag_ignored _ _ [⟨"Wx", [⟨"a", "b", ⟨"晴"⟩⟩]⟩] []
    ⟨"UVI", [⟨"a", "b", ⟨"5"⟩⟩]⟩ ⟨"UVI", [⟨"a", "b", ⟨"99"⟩⟩]⟩ 1 rfl rfl
    (by decide) rfl rfl
    (by intro i; cases i <;> rfl) (by intro i; cases i <;> rfl) (by decide)

/-- Claim C10: when two or more elements carry the same recognized tag, the
field written into each interval is the value of the last such element in the
`weatherElement` array — later elements overwrite earlier ones. -/
theorem duplicate_tag_last_wins (loc : LocationData) (l₁ l₂ : List WeatherElement)
    (e e0 : WeatherElement) (t : String) (tc : Nat)
    (hel : loc.weatherElement = l₁ ++ e :: l₂)
    (ht : t ∈ recognizedTags) (hname : e.elementName = t)
    (he0 : e0 ∈ l₁) (he0name : e0.elementName = t)
    (hlast : ∀ e2 ∈ l₂, e2.elementName ≠ t)
    (halign : ∀ el ∈ loc.weatherElement, el.time.length = tc) :
    ∃ fs, normalize loc = some fs ∧ fs.length = tc ∧
      ∀ i, i < tc → ∀ f, fs[i]? = some f → tagField t f = tagFormat t (paramAt e i) := by
  cases l₁ with
  | nil => exact absurd he0 (List.not_mem_nil e0)
  | cons a l₁t =>
    have helc : loc.weatherElement = a :: (l₁t ++ e :: l₂) := by rw [hel]; rfl
    have hn := normalize_of_aligned_tc loc a _ tc helc halign
    refine ⟨_, hn, by simp, ?_⟩
    intro i hi f hf
    rw [getElem?_map_range _ _ i hi] at hf
    injection hf with hf
    rw [← hf, forecastAt, tagField_applyElementsPure t ht i, hel,
      lastTagParam_append_last t i (a :: l₁t) l₂ e hname hlast]

/-- Witness for C10: two `PoP` elements with values 10 and 70; the rain field
comes from the later one. -/
theorem duplicate_tag_last_wins_witness :
    ∃ fs,
      normalize ⟨"屏東縣", [⟨"PoP", [⟨"a", "b", ⟨"10"⟩⟩]⟩, ⟨"PoP", [⟨"a", "b", ⟨"70"⟩⟩]⟩]⟩ =
        some fs ∧ fs.length = 1 ∧
      ∀ i, i < 1 → ∀ f, fs[i]? = some f →
        tagField "PoP" f = tagFormat "PoP" (paramAt ⟨"PoP", [⟨"a", "b", ⟨"70"⟩⟩]⟩ i) :=
  duplicate_tag_last_wins _ [⟨"PoP", [⟨"a", "b", ⟨"10"⟩⟩]⟩] []
    ⟨"PoP", [⟨"a", "b", ⟨"70"⟩⟩]⟩ ⟨"PoP", [⟨"a", "b", ⟨"10"⟩⟩]⟩ "PoP" 1 rfl
    (by decide) rfl (by decide) rfl (by decide) (by decide)

end CwaWeather
